import Mathlib

/-
Verification of the Adaptive Mutation Policy Engine core
(telemetry extraction, reward computation, GAE, strategy catalog,
PPO trainer buffer discipline, checkpointing).

The embedding models the Python source faithfully over exact rationals:
each Python float/int field becomes a ℚ value, lists keep the source's
append-at-end order (so history[-1] is List.getLast), and fallible
operations return Option.
-/

namespace FuzzMaster

/-- Container for fuzzing metrics, one telemetry snapshot
(feedback_analyzer.py, class FuzzingMetrics).  All fields initialise
to zero in the source constructor. -/
structure FuzzingMetrics where
  coverage : ℚ := 0
  unique_crashes : ℚ := 0
  unique_hangs : ℚ := 0
  total_execs : ℚ := 0
  execs_per_sec : ℚ := 0
  paths_total : ℚ := 0
  paths_found : ℚ := 0
  pending_favs : ℚ := 0
  pending_total : ℚ := 0
  bitmap_cvg : ℚ := 0
  stability : ℚ := 0
  levels : ℚ := 0
  last_crash : ℚ := 0
  last_hang : ℚ := 0
  last_path : ℚ := 0
  cycles_done : ℚ := 0
deriving DecidableEq

/-- The all-zero snapshot produced by FuzzingMetrics.__init__. -/
def FuzzingMetrics.init : FuzzingMetrics := {}

/-- Reward signal (feedback_analyzer.py, FeedbackAnalyzer.compute_reward,
lines 238-275).  history[-1] is the last list element, history[-2] the
one before it; fewer than two entries yields 0. -/
def compute_reward (metrics_history : List FuzzingMetrics) : ℚ :=
  match metrics_history.getLast?, metrics_history.dropLast.getLast? with
  | some current, some previous =>
      (current.coverage - previous.coverage) * 10
        + (current.unique_crashes - previous.unique_crashes) * 50
        + (current.paths_total - previous.paths_total) * 1
        + min (current.execs_per_sec / 1000) 1 * (1/2)
        + (current.stability / 100) * (1/2)
  | _, _ => 0

/-- The time delta used for rate computation
(feedback_analyzer.py line 212): max(t - (t - 60), 1.0), where t is
self.last_update_time.  The wall-clock term cancels. -/
def time_delta (last_update_time : ℚ) : ℚ :=
  max (last_update_time - (last_update_time - 60)) 1

/-- State vector for the RL agent (feedback_analyzer.py,
FeedbackAnalyzer.get_state_vector, lines 184-236).  Zero vector for an
empty history; rates need two history entries, otherwise 0. -/
def get_state_vector (last_update_time : ℚ)
    (metrics_history : List FuzzingMetrics) : List ℚ :=
  match metrics_history.getLast? with
  | none => List.replicate 10 0
  | some current =>
      let rates : ℚ × ℚ × ℚ :=
        match metrics_history.dropLast.getLast? with
        | some previous =>
            let td := time_delta last_update_time
            ((current.coverage - previous.coverage) / td,
             (current.unique_crashes - previous.unique_crashes) / td,
             (current.paths_total - previous.paths_total) / td)
        | none => (0, 0, 0)
      [current.coverage / 100,
       rates.1,
       current.unique_crashes / 100,
       rates.2.1,
       current.execs_per_sec / 1000,
       current.paths_total / 1000,
       rates.2.2,
       current.stability / 100,
       current.cycles_done / 10,
       current.pending_favs / 100]

lemma getLast?_append_pair (rest : List FuzzingMetrics)
    (p c : FuzzingMetrics) :
    (rest ++ [p, c]).getLast? = some c := by
  have : rest ++ [p, c] = (rest ++ [p]) ++ [c] := by simp
  rw [this, List.getLast?_concat]

lemma dropLast_append_pair (rest : List FuzzingMetrics)
    (p c : FuzzingMetrics) :
    (rest ++ [p, c]).dropLast = rest ++ [p] := by
  have : rest ++ [p, c] = (rest ++ [p]) ++ [c] := by simp
  rw [this, List.dropLast_concat]

/-- Reward of any history written as rest ++ [previous, current]. -/
lemma compute_reward_append (rest : List FuzzingMetrics)
    (p c : FuzzingMetrics) :
    compute_reward (rest ++ [p, c]) =
      (c.coverage - p.coverage) * 10
        + (c.unique_crashes - p.unique_crashes) * 50
        + (c.paths_total - p.paths_total) * 1
        + min (c.execs_per_sec / 1000) 1 * (1/2)
        + (c.stability / 100) * (1/2) := by
  unfold compute_reward
  rw [getLast?_append_pair, dropLast_append_pair, List.getLast?_concat]

/-- The two snapshots of the spec's reward scenario. -/
def snapshotA : FuzzingMetrics :=
  { coverage := 10, unique_crashes := 2, paths_total := 100,
    execs_per_sec := 500, stability := 95 }

/-- Second snapshot of the spec's reward scenario. -/
def snapshotB : FuzzingMetrics :=
  { coverage := 25/2, unique_crashes := 3, paths_total := 130,
    execs_per_sec := 520, stability := 96 }

/-- C1: with at least two history entries, reward() equals
10·Δcoverage + 50·Δcrashes + 1·Δpaths + 0.5·min(throughput/1000, 1)
+ 0.5·(stability/100) over the two most recent snapshots; a history of
fewer than two entries yields 0; and on the spec's concrete pair of
snapshots the reward is exactly 105.74. -/
theorem compute_reward_formula :
    (∀ (rest : List FuzzingMetrics) (p c : FuzzingMetrics),
        compute_reward (rest ++ [p, c]) =
          10 * (c.coverage - p.coverage)
            + 50 * (c.unique_crashes - p.unique_crashes)
            + 1 * (c.paths_total - p.paths_total)
            + (1/2) * min (c.execs_per_sec / 1000) 1
            + (1/2) * (c.stability / 100))
    ∧ (∀ metrics_history : List FuzzingMetrics,
        metrics_history.length < 2 → compute_reward metrics_history = 0)
    ∧ compute_reward [snapshotA, snapshotB] = 10574/100 := by
  refine ⟨?_, ?_, ?_⟩
  · intro rest p c
    rw [compute_reward_append]; ring
  · intro h hlen
    match h, hlen with
    | [], _ => rfl
    | [m], _ => rfl
    | a :: b :: t, hlen => simp at hlen; omega
  · have h := compute_reward_append [] snapshotA snapshotB
    simp only [List.nil_append] at h
    rw [h]
    norm_num [snapshotA, snapshotB]

/-- Witness for compute_reward_formula: its hypotheses discharged at
concrete inputs. -/
theorem compute_reward_formula_witness :
    compute_reward [snapshotA] = 0 ∧
    compute_reward [snapshotA, snapshotB] = 10574/100 := by
  refine ⟨compute_reward_formula.2.1 [snapshotA] (by decide), ?_⟩
  exact compute_reward_formula.2.2

lemma time_delta_const (t : ℚ) : time_delta t = 60 := by
  unfold time_delta
  have h : t - (t - 60) = 60 := by ring
  rw [h]
  exact max_eq_left (by norm_num)

/-- State vector of a history whose last two snapshots are p, c. -/
lemma get_state_vector_append_pair (t : ℚ) (rest : List FuzzingMetrics)
    (p c : FuzzingMetrics) :
    get_state_vector t (rest ++ [p, c]) =
      [c.coverage / 100,
       (c.coverage - p.coverage) / 60,
       c.unique_crashes / 100,
       (c.unique_crashes - p.unique_crashes) / 60,
       c.execs_per_sec / 1000,
       c.paths_total / 1000,
       (c.paths_total - p.paths_total) / 60,
       c.stability / 100,
       c.cycles_done / 10,
       c.pending_favs / 100] := by
  unfold get_state_vector
  rw [getLast?_append_pair, dropLast_append_pair, List.getLast?_concat]
  simp [time_delta_const]

/-- Any nonempty history: the non-rate components are plain scalings of
the latest snapshot, whatever the rates come out to be. -/
lemma get_state_vector_concat (t : ℚ) (rest : List FuzzingMetrics)
    (c : FuzzingMetrics) :
    ∃ r1 r3 r6 : ℚ, get_state_vector t (rest ++ [c]) =
      [c.coverage / 100, r1, c.unique_crashes / 100, r3,
       c.execs_per_sec / 1000, c.paths_total / 1000, r6,
       c.stability / 100, c.cycles_done / 10, c.pending_favs / 100] := by
  unfold get_state_vector
  rw [List.getLast?_concat, List.dropLast_concat]
  cases h : rest.getLast? with
  | none => exact ⟨0, 0, 0, by simp⟩
  | some prev =>
      exact ⟨(c.coverage - prev.coverage) / time_delta t,
             (c.unique_crashes - prev.unique_crashes) / time_delta t,
             (c.paths_total - prev.paths_total) / time_delta t, by simp⟩

/-- C5: state_vector() always has length exactly 10, returns the
all-zero vector on an empty history, and is a deterministic pure
function of the history alone: the wall-clock input
(self.last_update_time) does not influence the result, because the
time-delta expression cancels to the constant 60. -/
theorem state_vector_length_zero_deterministic :
    (∀ (t : ℚ) (metrics_history : List FuzzingMetrics),
        (get_state_vector t metrics_history).length = 10)
    ∧ (∀ t : ℚ, get_state_vector t [] = List.replicate 10 0)
    ∧ (∀ (t₁ t₂ : ℚ) (metrics_history : List FuzzingMetrics),
        get_state_vector t₁ metrics_history
          = get_state_vector t₂ metrics_history) := by
  refine ⟨?_, ?_, ?_⟩
  · intro t hist
    unfold get_state_vector
    cases h : hist.getLast? with
    | none => simp
    | some current =>
        cases h2 : hist.dropLast.getLast? <;> simp
  · intro t; rfl
  · intro t₁ t₂ hist
    unfold get_state_vector
    simp only [time_delta_const]

/-- C10: the rate components of state_vector() divide the deltas of the
two most recent snapshots by the fixed constant 60 — the time-delta
expression max(t − (t − 60), 1) equals 60 for every wall-clock value t,
so the actual elapsed time never enters. -/
theorem state_vector_rates_div60 :
    (∀ t : ℚ, time_delta t = 60)
    ∧ (∀ (t : ℚ) (rest : List FuzzingMetrics) (p c : FuzzingMetrics),
        (get_state_vector t (rest ++ [p, c])).getD 1 0
            = (c.coverage - p.coverage) / 60
        ∧ (get_state_vector t (rest ++ [p, c])).getD 3 0
            = (c.unique_crashes - p.unique_crashes) / 60
        ∧ (get_state_vector t (rest ++ [p, c])).getD 6 0
            = (c.paths_total - p.paths_total) / 60) := by
  refine ⟨time_delta_const, ?_⟩
  intro t rest p c
  rw [get_state_vector_append_pair]
  exact ⟨rfl, rfl, rfl⟩

/-- C3 counterexample: the normalized-crash component (index 2) of
state_vector() is NOT confined to any bounded range — for every
candidate pair of bounds there is a snapshot (with a large enough
unique_crashes value) whose component escapes it.  The claim that every
non-rate component is clamped to a bounded range is therefore false. -/
theorem state_vector_ratio_component_unbounded :
    ¬ ∃ lo hi : ℚ, ∀ metrics_history : List FuzzingMetrics,
        lo ≤ (get_state_vector 0 metrics_history).getD 2 0
        ∧ (get_state_vector 0 metrics_history).getD 2 0 ≤ hi := by
  rintro ⟨lo, hi, hb⟩
  have h := (hb [{ unique_crashes := 100 * hi + 100 }]).2
  have hv : (get_state_vector 0
      [({ unique_crashes := 100 * hi + 100 } : FuzzingMetrics)]).getD 2 0
      = hi + 1 := by
    norm_num [get_state_vector]
    ring
  rw [hv] at h
  linarith

/-- C3 amended: the non-rate components of state_vector() are unclamped
linear scalings of the latest snapshot's fields (coverage/100,
crashes/100, throughput/1000, paths/1000, stability/100, cycles/10,
pending/100); no clamping is applied, so they can leave any nominal
range — a snapshot with 200 unique crashes yields component 2.0.  The
rate components are likewise unclamped (see state_vector_rates_div60
for their formula). -/
theorem state_vector_nonrate_components_unclamped :
    (∀ (t : ℚ) (rest : List FuzzingMetrics) (c : FuzzingMetrics),
        (get_state_vector t (rest ++ [c])).getD 0 0 = c.coverage / 100
        ∧ (get_state_vector t (rest ++ [c])).getD 2 0
            = c.unique_crashes / 100
        ∧ (get_state_vector t (rest ++ [c])).getD 4 0
            = c.execs_per_sec / 1000
        ∧ (get_state_vector t (rest ++ [c])).getD 5 0
            = c.paths_total / 1000
        ∧ (get_state_vector t (rest ++ [c])).getD 7 0
            = c.stability / 100
        ∧ (get_state_vector t (rest ++ [c])).getD 8 0
            = c.cycles_done / 10
        ∧ (get_state_vector t (rest ++ [c])).getD 9 0
            = c.pending_favs / 100)
    ∧ (get_state_vector 0
        [({ unique_crashes := 200 } : FuzzingMetrics)]).getD 2 0 = 2 := by
  constructor
  · intro t rest c
    obtain ⟨r1, r3, r6, he⟩ := get_state_vector_concat t rest c
    rw [he]
    exact ⟨rfl, rfl, rfl, rfl, rfl, rfl, rfl⟩
  · norm_num [get_state_vector]

/-- C9: reward() is strictly monotone in the coverage delta and in the
crash delta — raising only the latest snapshot's coverage (resp.
unique_crashes) while every other field and every earlier snapshot is
held fixed strictly increases compute_reward. -/
theorem reward_monotone_coverage_crashes :
    (∀ (rest : List FuzzingMetrics) (p c : FuzzingMetrics) (d : ℚ),
        0 < d →
        compute_reward (rest ++ [p, c])
          < compute_reward (rest ++ [p, { c with coverage := c.coverage + d }]))
    ∧ (∀ (rest : List FuzzingMetrics) (p c : FuzzingMetrics) (d : ℚ),
        0 < d →
        compute_reward (rest ++ [p, c])
          < compute_reward (rest ++ [p,
              { c with unique_crashes := c.unique_crashes + d }])) := by
  constructor
  · intro rest p c d hd
    rw [compute_reward_append, compute_reward_append]
    simp only
    linarith
  · intro rest p c d hd
    rw [compute_reward_append, compute_reward_append]
    simp only
    linarith

/-- Witness for reward_monotone_coverage_crashes at concrete inputs. -/
theorem reward_monotone_coverage_crashes_witness :
    compute_reward [snapshotA, snapshotB]
      < compute_reward [snapshotA, { snapshotB with coverage := snapshotB.coverage + 1 }]
    ∧ compute_reward [snapshotA, snapshotB]
      < compute_reward [snapshotA,
          { snapshotB with unique_crashes := snapshotB.unique_crashes + 1 }] :=
  ⟨reward_monotone_coverage_crashes.1 [] snapshotA snapshotB 1 (by norm_num),
   reward_monotone_coverage_crashes.2 [] snapshotA snapshotB 1 (by norm_num)⟩

/-- Result of regex-matching the fuzzer_stats content: one entry per
pattern key of parse_fuzzer_stats (feedback_analyzer.py lines 112-125).
A field is some v when its regex matched with numeric value v, and none
when the key is missing or its value cannot be parsed (the regex does
not match, so setattr is skipped and the zero default survives). -/
structure StatsContent where
  total_execs : Option ℚ := none
  execs_per_sec : Option ℚ := none
  paths_total : Option ℚ := none
  unique_crashes : Option ℚ := none
  unique_hangs : Option ℚ := none
  bitmap_cvg : Option ℚ := none
  stability : Option ℚ := none
  pending_favs : Option ℚ := none
  pending_total : Option ℚ := none
  cycles_done : Option ℚ := none
  last_crash : Option ℚ := none
  last_path : Option ℚ := none
deriving DecidableEq

/-- The snapshot built from readable stats content
(feedback_analyzer.py lines 106-142): every unmatched field keeps the
zero default, then coverage := bitmap_cvg and paths_found :=
paths_total. -/
def parsed_metrics (c : StatsContent) : FuzzingMetrics :=
  let m : FuzzingMetrics :=
    { total_execs := c.total_execs.getD 0,
      execs_per_sec := c.execs_per_sec.getD 0,
      paths_total := c.paths_total.getD 0,
      unique_crashes := c.unique_crashes.getD 0,
      unique_hangs := c.unique_hangs.getD 0,
      bitmap_cvg := c.bitmap_cvg.getD 0,
      stability := c.stability.getD 0,
      pending_favs := c.pending_favs.getD 0,
      pending_total := c.pending_total.getD 0,
      cycles_done := c.cycles_done.getD 0,
      last_crash := c.last_crash.getD 0,
      last_path := c.last_path.getD 0 }
  { m with coverage := m.bitmap_cvg, paths_found := m.paths_total }

/-- FeedbackAnalyzer.parse_fuzzer_stats (lines 94-146).  The input is
none when the stats file does not exist or reading it raises (both
return None in the source); otherwise the regex-match results. -/
def parse_fuzzer_stats (src : Option StatsContent) : Option FuzzingMetrics :=
  match src with
  | none => none
  | some c => some (parsed_metrics c)

/-- Mutable attributes of the FeedbackAnalyzer relevant to polling
(feedback_analyzer.py __init__, lines 67-92). -/
structure FeedbackAnalyzer where
  history_size : Nat := 10
  metrics_history : List FuzzingMetrics := []
  baseline_metrics : Option FuzzingMetrics := none
  last_update_time : ℚ := 0
deriving DecidableEq

/-- FeedbackAnalyzer.update (lines 157-182): parse the stats source; on
None return False and change nothing; otherwise append the snapshot,
pop the oldest entry when the history exceeds history_size, set the
baseline on first success, refresh last_update_time (now = the
time.time() value), and return True. -/
def FeedbackAnalyzer.update (st : FeedbackAnalyzer)
    (src : Option StatsContent) (now : ℚ) : FeedbackAnalyzer × Bool :=
  match parse_fuzzer_stats src with
  | none => (st, false)
  | some m =>
      let hist := st.metrics_history ++ [m]
      let hist := if st.history_size < hist.length then hist.drop 1 else hist
      ({ st with
          metrics_history := hist,
          baseline_metrics := some (st.baseline_metrics.getD m),
          last_update_time := now }, true)

/-- C4 counterexample: a poll whose source is readable but in which
every required field fails to parse does NOT fail and does NOT leave
the history unchanged — update() reports success and appends an
all-default snapshot, so the history after the poll differs from the
history before it. -/
theorem update_appends_on_unparsed_fields :
    (FeedbackAnalyzer.update {} (some {}) 0).2 = true
    ∧ (FeedbackAnalyzer.update {} (some {}) 0).1.metrics_history
        ≠ ({} : FeedbackAnalyzer).metrics_history := by
  decide

/-- C4 amended: a poll fails (returns False) and appends nothing only
when nothing can be read at all (missing stats file or read exception,
modelled by a none source).  A readable source always succeeds, even if
required fields cannot be parsed: each unmatched field defaults to 0
(an entirely unparsable source parses to the all-zero snapshot), and
the resulting snapshot IS appended to the history. -/
theorem update_drop_only_when_unreadable :
    (∀ (st : FeedbackAnalyzer) (now : ℚ),
        FeedbackAnalyzer.update st none now = (st, false))
    ∧ (∀ (st : FeedbackAnalyzer) (c : StatsContent) (now : ℚ),
        (FeedbackAnalyzer.update st (some c) now).2 = true)
    ∧ (∀ (st : FeedbackAnalyzer) (c : StatsContent) (now : ℚ),
        st.metrics_history.length < st.history_size →
        (FeedbackAnalyzer.update st (some c) now).1.metrics_history
          = st.metrics_history ++ [parsed_metrics c])
    ∧ parse_fuzzer_stats (some {}) = some FuzzingMetrics.init := by
  refine ⟨fun st now => rfl, fun st c now => rfl, ?_, by decide⟩
  intro st c now hlen
  unfold FeedbackAnalyzer.update parse_fuzzer_stats
  simp only
  have hcond : ¬ st.history_size < (st.metrics_history ++ [parsed_metrics c]).length := by
    simp only [List.length_append, List.length_cons, List.length_nil]
    omega
  rw [if_neg hcond]

/-- Witness for update_drop_only_when_unreadable at concrete inputs. -/
theorem update_drop_only_when_unreadable_witness :
    FeedbackAnalyzer.update {} none 0 = ({}, false)
    ∧ (FeedbackAnalyzer.update {} (some {}) 0).1.metrics_history
        = [FuzzingMetrics.init] := by
  refine ⟨update_drop_only_when_unreadable.1 {} 0, ?_⟩
  rw [update_drop_only_when_unreadable.2.2.1 {} {} 0 (by decide)]
  decide

/-- AFL++ mutation strategies (mutation_selector.py, IntEnum
MutationStrategy, values 0-7). -/
inductive MutationStrategy where
  | BITFLIP
  | BYTEFLIP
  | ARITHMETIC
  | INTERESTING
  | HAVOC_LIGHT
  | HAVOC_MEDIUM
  | HAVOC_HEAVY
  | SPLICE
deriving DecidableEq

/-- Integer value of a strategy, matching the IntEnum assignment. -/
def MutationStrategy.val : MutationStrategy → Nat
  | .BITFLIP => 0
  | .BYTEFLIP => 1
  | .ARITHMETIC => 2
  | .INTERESTING => 3
  | .HAVOC_LIGHT => 4
  | .HAVOC_MEDIUM => 5
  | .HAVOC_HEAVY => 6
  | .SPLICE => 7

/-- MutationStrategy(n) on an in-range value.  The catch-all branch is
unreachable from select_strategy (its guard has already clamped the
action); in Python an out-of-range value there would raise ValueError. -/
def MutationStrategy.fromVal : Nat → MutationStrategy
  | 0 => .BITFLIP
  | 1 => .BYTEFLIP
  | 2 => .ARITHMETIC
  | 3 => .INTERESTING
  | 4 => .HAVOC_LIGHT
  | 5 => .HAVOC_MEDIUM
  | 6 => .HAVOC_HEAVY
  | 7 => .SPLICE
  | _ => .HAVOC_MEDIUM

/-- Per-strategy running totals (mutation_selector.py lines 44-52). -/
structure StrategyStatsEntry where
  times_selected : Nat := 0
  coverage_gains : ℚ := 0
  crashes_found : ℤ := 0
  paths_found : ℤ := 0
deriving DecidableEq

/-- Number of available actions (len(MutationStrategy)). -/
def num_strategies : Nat := 8

/-- Mutable attributes of the MutationStrategySelector
(mutation_selector.py __init__, lines 41-57). -/
structure MutationStrategySelector where
  strategy_stats : MutationStrategy → StrategyStatsEntry := fun _ => {}
  current_strategy : Option MutationStrategy := none
  strategy_history : List MutationStrategy := []

/-- MutationStrategySelector.select_strategy (lines 63-86): an action
outside [0, num_strategies) is replaced by HAVOC_MEDIUM (value 5)
instead of raising; the chosen strategy is recorded as current, pushed
on the history and its times_selected incremented. -/
def MutationStrategySelector.select_strategy
    (st : MutationStrategySelector) (action : ℤ) :
    MutationStrategySelector × MutationStrategy :=
  let a : ℤ :=
    if action < 0 ∨ (num_strategies : ℤ) ≤ action then 5 else action
  let strategy := MutationStrategy.fromVal a.toNat
  ({ st with
      current_strategy := some strategy,
      strategy_history := st.strategy_history ++ [strategy],
      strategy_stats := fun s =>
        if s = strategy then
          { st.strategy_stats s with
              times_selected := (st.strategy_stats s).times_selected + 1 }
        else st.strategy_stats s },
   strategy)

/-- C7: strategy selection is total (never raises): every out-of-range
action — negative or ≥ 8, including 999 — yields the safe default
HAVOC_MEDIUM (the "balanced/medium" strategy), and every in-range
action n maps to its own catalog entry, the strategy of value n. -/
theorem select_strategy_clamps_to_default :
    (∀ (st : MutationStrategySelector) (action : ℤ),
        action < 0 ∨ (8 : ℤ) ≤ action →
        (st.select_strategy action).2 = MutationStrategy.HAVOC_MEDIUM)
    ∧ (∀ (st : MutationStrategySelector) (n : Nat), n < 8 →
        (st.select_strategy (n : ℤ)).2.val = n) := by
  constructor
  · intro st action h
    have hc : action < 0 ∨ (num_strategies : ℤ) ≤ action := by
      simpa [num_strategies] using h
    unfold MutationStrategySelector.select_strategy
    rw [if_pos hc]
    rfl
  · intro st n hn
    have hc : ¬ ((n : ℤ) < 0 ∨ (num_strategies : ℤ) ≤ (n : ℤ)) := by
      simp only [num_strategies, not_or, not_lt, not_le]
      constructor
      · exact_mod_cast Nat.zero_le n
      · exact_mod_cast hn
    unfold MutationStrategySelector.select_strategy
    rw [if_neg hc]
    show (MutationStrategy.fromVal ((n : ℤ)).toNat).val = n
    rw [Int.toNat_natCast]
    interval_cases n <;> rfl

/-- Witness for select_strategy_clamps_to_default: action 999 and
action -1 give HAVOC_MEDIUM, action 3 gives the strategy of value 3. -/
theorem select_strategy_clamps_to_default_witness :
    (MutationStrategySelector.select_strategy {} 999).2
        = MutationStrategy.HAVOC_MEDIUM
    ∧ (MutationStrategySelector.select_strategy {} (-1)).2
        = MutationStrategy.HAVOC_MEDIUM
    ∧ (MutationStrategySelector.select_strategy {} 3).2.val = 3 :=
  ⟨select_strategy_clamps_to_default.1 {} 999 (Or.inr (by norm_num)),
   select_strategy_clamps_to_default.1 {} (-1) (Or.inl (by norm_num)),
   select_strategy_clamps_to_default.2 {} 3 (by norm_num)⟩

/-- One nn.Linear layer: y = W·x + b, weight rows paired with bias
entries. -/
structure LinearLayer where
  weight : List (List ℚ) := []
  bias : List ℚ := []
deriving DecidableEq

/-- Dot product of two rational vectors. -/
def dot (xs ys : List ℚ) : ℚ := (List.zipWith (· * ·) xs ys).sum

/-- Apply a linear layer to an input vector. -/
def linear_forward (L : LinearLayer) (x : List ℚ) : List ℚ :=
  List.zipWith (fun row b => dot row x + b) L.weight L.bias

/-- Componentwise ReLU. -/
def relu_vec (x : List ℚ) : List ℚ := x.map (fun v => max v 0)

/-- Parameters of the PPONetwork (ppo_agent.py lines 40-52): two shared
layers, then actor and critic heads — exactly the tensors of the
network state_dict. -/
structure PPONetworkParams where
  shared_fc1 : LinearLayer := {}
  shared_fc2 : LinearLayer := {}
  actor_fc : LinearLayer := {}
  actor_out : LinearLayer := {}
  critic_fc : LinearLayer := {}
  critic_out : LinearLayer := {}
deriving DecidableEq

/-- PPONetwork.forward (ppo_agent.py lines 67-89): shared feature
extraction with ReLU, then the actor head producing action logits and
the critic head producing the scalar state value. -/
def PPONetwork.forward (p : PPONetworkParams) (state : List ℚ) :
    List ℚ × ℚ :=
  let x1 := relu_vec (linear_forward p.shared_fc1 state)
  let x2 := relu_vec (linear_forward p.shared_fc2 x1)
  let actor := relu_vec (linear_forward p.actor_fc x2)
  let action_logits := linear_forward p.actor_out actor
  let critic := relu_vec (linear_forward p.critic_fc x2)
  let state_value := (linear_forward p.critic_out critic).headD 0
  (action_logits, state_value)

/-- First index attaining the running maximum (torch.argmax picks the
first maximal entry). -/
def argmax_aux : List ℚ → Nat → Nat → ℚ → Nat
  | [], _, bi, _ => bi
  | x :: xs, i, bi, best =>
      if best < x then argmax_aux xs (i + 1) i x
      else argmax_aux xs (i + 1) bi best

/-- Index of the first maximal element of a list (0 on empty). -/
def argmax_idx : List ℚ → Nat
  | [] => 0
  | x :: xs => argmax_aux xs 1 0 x

/-- Deterministic branch of PPONetwork.get_action (ppo_agent.py lines
105-108): action = argmax of softmax(logits), and softmax is strictly
increasing, so the chosen index is the argmax of the logits themselves.
The log-probability is logits[action] − log Σ exp(logits), a fixed
function of (logits, action); exp and log have no exact rational
embedding, so the decision is represented by (action, logits, value),
which determines the source's (action, log_prob, value) triple. -/
def PPONetwork.get_action_det (p : PPONetworkParams) (state : List ℚ) :
    Nat × List ℚ × ℚ :=
  let fwd := PPONetwork.forward p state
  (argmax_idx fwd.1, fwd.1, fwd.2)

/-- Mutable state of the PPOAgent (ppo_agent.py __init__, lines
173-198): network parameters, optimizer state (Adam moments, opaque to
the claims), the GAE hyperparameters, and the six experience-buffer
lists. -/
structure PPOAgentState where
  network : PPONetworkParams := {}
  optimizer_state : List ℚ := []
  gamma : ℚ := 99/100
  gae_lambda : ℚ := 95/100
  states : List (List ℚ) := []
  actions : List Nat := []
  log_probs : List ℚ := []
  rewards : List ℚ := []
  values : List ℚ := []
  dones : List Bool := []
deriving DecidableEq

/-- Backward GAE recursion (ppo_agent.py lines 251-263).  The source
loops t from len(rewards)-1 down to 0 over values = self.values ++
[next_value]; the structural recursion below computes the same list:
at each position, values[t+1] is the head of the remaining stored
values (or the bootstrap next_value at the end — the source's t ==
len-1 branch reads next_value, which equals values[t+1] there by
construction), and last_gae is the head of the already-computed tail
(0 initially).  Mismatched buffer lengths would raise an IndexError in
the source; the embedding returns [] there. -/
def gae_advantages (γ lam : ℚ) :
    List ℚ → List ℚ → List Bool → ℚ → List ℚ
  | r :: rs, v :: vs, d :: ds, next_value =>
      let tail := gae_advantages γ lam rs vs ds next_value
      let next_v := vs.headD next_value
      let non_terminal : ℚ := if d then 0 else 1
      let delta := r + γ * next_v * non_terminal - v
      (delta + γ * lam * non_terminal * tail.headD 0) :: tail
  | _, _, _, _ => []

/-- PPOAgent.compute_gae (ppo_agent.py lines 237-267): advantages by
the backward recursion, returns = advantages + values[:-1] (the stored
values, componentwise). -/
def PPOAgent.compute_gae (a : PPOAgentState) (next_value : ℚ) :
    List ℚ × List ℚ :=
  let advantages :=
    gae_advantages a.gamma a.gae_lambda a.rewards a.values a.dones next_value
  (advantages, List.zipWith (· + ·) advantages a.values)

/-- Training statistics returned by a non-empty update
(ppo_agent.py lines 359-365). -/
structure TrainingStats where
  policy_loss : ℚ
  value_loss : ℚ
  entropy : ℚ
  mean_return : ℚ
  mean_advantage : ℚ
deriving DecidableEq

/-- Model of the optimization loop of PPOAgent.update (ppo_agent.py
lines 291-353): advantage normalization needs a square root, the
losses need exp and log, minibatches are shuffled by the RNG, and the
Adam step is float arithmetic — none of which has an exact rational
embedding, and the shuffle makes the outcome nondeterministic.  The
oracle consumes the pre-update agent, the raw advantages and returns,
and (n_epochs, batch_size), and yields the post-optimization network
parameters, optimizer state and accumulated statistics.  Everything
the claims depend on (the emptiness guard, the GAE computation, the
bootstrap forward pass and the unconditional buffer clearing) is
embedded concretely outside the oracle. -/
def TrainOracle : Type :=
  PPOAgentState → List ℚ → List ℚ → Nat → Nat →
    PPONetworkParams × List ℚ × TrainingStats

/-- PPOAgent.update (ppo_agent.py lines 269-367): returns the empty
stats dict (none) iff the buffer is empty — the only guard is
len(self.states) == 0; otherwise it bootstraps the last state's value
with a forward pass, computes GAE, runs the optimization epochs
(the oracle) and then unconditionally clears all six buffer lists
(clear_buffer, line 356). -/
def PPOAgent.update (train : TrainOracle) (a : PPOAgentState)
    (n_epochs batch_size : Nat) : PPOAgentState × Option TrainingStats :=
  if a.states.isEmpty then (a, none)
  else
    let last_state := a.states.getLastD []
    let last_value := (PPONetwork.forward a.network last_state).2
    let gr := PPOAgent.compute_gae a last_value
    let res := train a gr.1 gr.2 n_epochs batch_size
    ({ a with
        network := res.1,
        optimizer_state := res.2.1,
        states := [], actions := [], log_probs := [],
        rewards := [], values := [], dones := [] },
     some res.2.2)

/-- FuzzingController.training_step, PPO-update portion
(fuzzing_controller.py lines 220-225): the 32-transition minimum is
enforced HERE, by the caller — agent.update is invoked only when the
buffer holds at least 32 transitions, with n_epochs=10 and
batch_size=32. -/
def training_step_update (train : TrainOracle) (a : PPOAgentState) :
    PPOAgentState × Option TrainingStats :=
  if 32 ≤ a.states.length then PPOAgent.update train a 10 32
  else (a, none)

/-- A concrete instantiation of the optimization loop that keeps the
parameters and reports zero losses. -/
def trivial_oracle : TrainOracle :=
  fun a _ _ _ _ => (a.network, a.optimizer_state, ⟨0, 0, 0, 0, 0⟩)

/-- An agent whose buffer holds exactly one stored transition. -/
def one_transition_agent : PPOAgentState :=
  { states := [List.replicate 10 0], actions := [0], log_probs := [0],
    rewards := [1], values := [0], dones := [false] }

/-- Checkpoint written by PPOAgent.save (ppo_agent.py lines 378-384):
the network state_dict and the optimizer state_dict. -/
structure Checkpoint where
  network_state_dict : PPONetworkParams
  optimizer_state_dict : List ℚ
deriving DecidableEq

/-- PPOAgent.save (lines 378-384). -/
def PPOAgent.save (a : PPOAgentState) : Checkpoint :=
  ⟨a.network, a.optimizer_state⟩

/-- PPOAgent.load (lines 386-391): overwrite the network and optimizer
state from the checkpoint, leaving the rest of the agent as it is. -/
def PPOAgent.load (a : PPOAgentState) (c : Checkpoint) : PPOAgentState :=
  { a with
      network := c.network_state_dict,
      optimizer_state := c.optimizer_state_dict }

lemma getD_zero_headD (l : List ℚ) : l.getD 0 0 = l.headD 0 := by
  cases l <;> rfl

lemma headD_append_single (vs : List ℚ) (nv : ℚ) :
    (vs ++ [nv]).headD 0 = vs.headD nv := by
  cases vs <;> rfl

lemma gae_advantages_length (γ lam : ℚ) :
    ∀ (rewards values : List ℚ) (dones : List Bool) (nv : ℚ),
      values.length = rewards.length → dones.length = rewards.length →
      (gae_advantages γ lam rewards values dones nv).length
        = rewards.length := by
  intro rewards
  induction rewards with
  | nil =>
      intro values dones nv hv hd
      cases values <;> cases dones <;> simp_all [gae_advantages]
  | cons r rs ih =>
      intro values dones nv hv hd
      match values, dones with
      | v :: vs, d :: ds =>
          simp only [gae_advantages, List.length_cons]
          rw [ih vs ds nv (by simpa using hv) (by simpa using hd)]

lemma zipWith_add_getD :
    ∀ (xs ys : List ℚ) (t : Nat), t < xs.length → t < ys.length →
      (List.zipWith (· + ·) xs ys).getD t 0 = xs.getD t 0 + ys.getD t 0 := by
  intro xs
  induction xs with
  | nil => intro ys t h; simp at h
  | cons x xs ih =>
      intro ys t hx hy
      match ys, t with
      | y :: ys, 0 => rfl
      | y :: ys, Nat.succ s =>
          simp only [List.zipWith_cons_cons, List.getD_cons_succ]
          exact ih ys s (by simpa using hx) (by simpa using hy)

/-- The GAE recurrence at an arbitrary index: with vals = values ++
[next_value], adv t = (r t + γ·vals (t+1)·(1−done t) − vals t)
+ γ·λ·(1−done t)·adv (t+1), where adv past the end reads 0 (the
initial last_gae). -/
lemma gae_advantages_rec (γ lam : ℚ) :
    ∀ (rewards values : List ℚ) (dones : List Bool) (nv : ℚ) (t : Nat),
      values.length = rewards.length → dones.length = rewards.length →
      t < rewards.length →
      (gae_advantages γ lam rewards values dones nv).getD t 0
        = (rewards.getD t 0
            + γ * ((values ++ [nv]).getD (t + 1) 0)
                * (if dones.getD t true then 0 else 1)
            - (values ++ [nv]).getD t 0)
          + γ * lam * (if dones.getD t true then 0 else 1)
            * (gae_advantages γ lam rewards values dones nv).getD (t + 1) 0 := by
  intro rewards
  induction rewards with
  | nil => intro values dones nv t hv hd ht; simp at ht
  | cons r rs ih =>
      intro values dones nv t hv hd ht
      match values, dones with
      | v :: vs, d :: ds =>
          cases t with
          | zero =>
              simp only [gae_advantages, List.cons_append,
                List.getD_cons_zero, List.getD_cons_succ]
              rw [getD_zero_headD, getD_zero_headD, headD_append_single]
          | succ s =>
              simp only [gae_advantages, List.cons_append,
                List.getD_cons_succ]
              exact ih vs ds nv s (by simpa using hv) (by simpa using hd)
                (by simpa using ht)

/-- C6: for a buffer holding a single transition with done = true, the
GAE advantage is reward − value and the return is the reward (the
bootstrap next-state value contributes nothing); in general the
advantages satisfy δ_t = r_t + γ·V(s_{t+1})·(1−done_t) − V(s_t),
A_t = δ_t + γ·λ·(1−done_t)·A_{t+1} (A past the buffer end being 0),
and returns = advantages + values componentwise. -/
theorem compute_gae_spec :
    (∀ (a : PPOAgentState) (r v nv : ℚ),
        a.rewards = [r] → a.values = [v] → a.dones = [true] →
        PPOAgent.compute_gae a nv = ([r - v], [r]))
    ∧ (∀ (γ lam : ℚ) (rewards values : List ℚ) (dones : List Bool)
        (nv : ℚ) (t : Nat),
        values.length = rewards.length → dones.length = rewards.length →
        t < rewards.length →
        (gae_advantages γ lam rewards values dones nv).getD t 0
          = (rewards.getD t 0
              + γ * ((values ++ [nv]).getD (t + 1) 0)
                  * (if dones.getD t true then 0 else 1)
              - (values ++ [nv]).getD t 0)
            + γ * lam * (if dones.getD t true then 0 else 1)
              * (gae_advantages γ lam rewards values dones nv).getD (t + 1) 0)
    ∧ (∀ (a : PPOAgentState) (nv : ℚ) (t : Nat),
        a.values.length = a.rewards.length →
        a.dones.length = a.rewards.length →
        t < a.rewards.length →
        (PPOAgent.compute_gae a nv).2.getD t 0
          = (PPOAgent.compute_gae a nv).1.getD t 0 + a.values.getD t 0) := by
  refine ⟨?_, gae_advantages_rec, ?_⟩
  · intro a r v nv hr hv hd
    unfold PPOAgent.compute_gae
    rw [hr, hv, hd]
    simp [gae_advantages]
  · intro a nv t hv hd ht
    unfold PPOAgent.compute_gae
    simp only
    apply zipWith_add_getD
    · rw [gae_advantages_length a.gamma a.gae_lambda a.rewards a.values
        a.dones nv hv hd]
      exact ht
    · omega

/-- Witness for compute_gae_spec at concrete buffers. -/
theorem compute_gae_spec_witness :
    PPOAgent.compute_gae
        { rewards := [5], values := [2], dones := [true] } 7 = ([3], [5])
    ∧ (gae_advantages (99/100) (95/100) [1] [0] [false] 1).getD 0 0
        = 199/100
    ∧ (PPOAgent.compute_gae
        { rewards := [5], values := [2], dones := [true] } 7).2.getD 0 0
        = (PPOAgent.compute_gae
            { rewards := [5], values := [2], dones := [true] } 7).1.getD 0 0
          + 2 := by
  refine ⟨?_, ?_, ?_⟩
  · have h := compute_gae_spec.1
      { rewards := [5], values := [2], dones := [true] } 5 2 7 rfl rfl rfl
    rw [h]
    norm_num
  · have h := compute_gae_spec.2.1 (99/100) (95/100) [1] [0] [false] 1 0
      rfl rfl (by norm_num)
    rw [h]
    norm_num [gae_advantages]
  · have h := compute_gae_spec.2.2
      { rewards := [5], values := [2], dones := [true] } 7 0 rfl rfl
      (by norm_num)
    simpa using h

/-- C2 counterexample: a direct update() call on a buffer holding one
stored transition (fewer than 32) is NOT a no-op — the emptiness guard
does not fire, and update unconditionally clears the buffer
(clear_buffer) and returns non-empty statistics, whatever the
optimization epochs do (here instantiated with the parameter-preserving
trivial_oracle). -/
theorem update_small_buffer_not_noop :
    one_transition_agent.states.length < 32
    ∧ (PPOAgent.update trivial_oracle one_transition_agent 10 32).1.states
        = []
    ∧ one_transition_agent.states ≠ []
    ∧ (PPOAgent.update trivial_oracle one_transition_agent 10 32).2
        ≠ none := by
  decide

/-- C2 amended: PPOAgent.update is a no-op returning empty stats only
when the buffer is EMPTY (its only guard is len(states) == 0); the
32-transition minimum is enforced by the caller — the controller's
training_step invokes update only when at least 32 transitions are
buffered, so below 32 the controller leaves the agent (buffer and
parameters) untouched, while a direct update call with 1-31 stored
transitions trains and clears the buffer. -/
theorem update_noop_guards :
    (∀ (train : TrainOracle) (a : PPOAgentState) (e b : Nat),
        a.states = [] → PPOAgent.update train a e b = (a, none))
    ∧ (∀ (train : TrainOracle) (a : PPOAgentState),
        a.states.length < 32 → training_step_update train a = (a, none)) := by
  constructor
  · intro train a e b h
    unfold PPOAgent.update
    rw [h]
    rfl
  · intro train a h
    unfold training_step_update
    rw [if_neg (by omega)]

/-- Witness for update_noop_guards: an empty-buffer update and a
one-transition controller step are both no-ops. -/
theorem update_noop_guards_witness :
    PPOAgent.update trivial_oracle {} 10 32 = ({}, none)
    ∧ training_step_update trivial_oracle one_transition_agent
        = (one_transition_agent, none) :=
  ⟨update_noop_guards.1 trivial_oracle {} 10 32 rfl,
   update_noop_guards.2 trivial_oracle one_transition_agent (by decide)⟩

/-- C8: a save/load round-trip restores the network parameters (and
optimizer state) exactly, so deterministic inference on any unchanged
state vector — the argmax action, the action logits (which determine
the log-probability) and the value — is identical to the agent's
behaviour before saving, whatever state the loading agent was in. -/
theorem checkpoint_roundtrip_identity :
    ∀ (a b : PPOAgentState) (state : List ℚ),
      (PPOAgent.load b (PPOAgent.save a)).network = a.network
      ∧ PPONetwork.get_action_det
            (PPOAgent.load b (PPOAgent.save a)).network state
          = PPONetwork.get_action_det a.network state
      ∧ (PPOAgent.load b (PPOAgent.save a)).optimizer_state
          = a.optimizer_state :=
  fun _ _ _ => ⟨rfl, rfl, rfl⟩

end FuzzMaster
